import Mathlib

/-!
Verification of the procedural-world core of the Zenith renderer.

Shallow embedding over the reals of:
* the seeded pseudo-Perlin noise generator (`PseudoNoise`, utils/math):
  `fade`, `lerp`, `grad`, `noise2D`, and the sine-derived base table `pTable`;
  the module-level singleton is constructed with seed `Math.random() * 1000`,
  modelled by `noiseSingletonSeed`;
* the shared terrain height function `getTerrainHeight` and its constants;
* the per-vertex terrain colour classifier of `TerrainChunk` (Terrain.tsx);
* the chunk streamer of `InfiniteWorld` (Terrain.tsx);
* the weather interpolation step of `SceneContent` (Scene.tsx);
* the flock integration/steering pieces of `Flock` (Flock.tsx);
* the per-chunk flora rejection-sampling loop of `NatureChunk` (Rain.tsx).

JavaScript `number` arithmetic is modelled by exact real arithmetic; the
bitwise masks `& 255`, `& 15`, `& 1`, `& 2` on the (non-negative) indices and
hashes used by the source are modelled by `% 256`, `% 16`, `% 2` and the bit
test `h / 2 % 2`, which agree with the JavaScript operators on the values that
occur.  three.js vector/colour operations are embedded with the formulas of
the three.js sources (in particular `Vector3.clampLength`, which divides by
`length || 1` and therefore maps the zero vector to itself).
-/

namespace Zenith

noncomputable section

/-! ### three.js `Vector3` operations used by the sources -/

structure Vec3 where
  x : ℝ
  y : ℝ
  z : ℝ

namespace Vec3

def add (a b : Vec3) : Vec3 := ⟨a.x + b.x, a.y + b.y, a.z + b.z⟩

def sub (a b : Vec3) : Vec3 := ⟨a.x - b.x, a.y - b.y, a.z - b.z⟩

def smul (a : Vec3) (s : ℝ) : Vec3 := ⟨a.x * s, a.y * s, a.z * s⟩

def lengthSq (a : Vec3) : ℝ := a.x * a.x + a.y * a.y + a.z * a.z

def length (a : Vec3) : ℝ := Real.sqrt a.lengthSq

def dot (a b : Vec3) : ℝ := a.x * b.x + a.y * b.y + a.z * b.z

def distanceToSquared (a b : Vec3) : ℝ := (a.sub b).lengthSq

/-- three.js `Vector3.normalize`: divides by `length || 1`, so the zero
vector is left unchanged. -/
def normalize (a : Vec3) : Vec3 :=
  a.smul (1 / (if a.length = 0 then 1 else a.length))

/-- three.js `Vector3.clampLength(min, max)`:
`divideScalar(length || 1).multiplyScalar(max(min, Math.min(max, length)))`. -/
def clampLength (a : Vec3) (lo hi : ℝ) : Vec3 :=
  let l := a.length
  (a.smul (1 / (if l = 0 then 1 else l))).smul (max lo (min hi l))

/-- three.js `Vector3.lerp(v, alpha)`: componentwise `this += (v - this) * alpha`. -/
def lerpV (a b : Vec3) (t : ℝ) : Vec3 :=
  ⟨a.x + (b.x - a.x) * t, a.y + (b.y - a.y) * t, a.z + (b.z - a.z) * t⟩

end Vec3

/-! ### PseudoNoise (utils/math.ts) -/

/-- Quintic fade curve `t*t*t*(t*(t*6-15)+10)`. -/
def fade (t : ℝ) : ℝ := t * t * t * (t * (t * 6 - 15) + 10)

/-- Linear interpolation `a + t * (b - a)` as in `PseudoNoise.lerp`. -/
def lerp (t a b : ℝ) : ℝ := a + t * (b - a)

/-- Gradient function of `PseudoNoise.grad`.  The source computes
`h = hash & 15`, `u = h < 8 ? x : y`,
`v = h < 4 ? y : (h === 12 || h === 14 ? x : z)` and combines them with signs
taken from bits `h & 1` and `h & 2`. -/
def grad (hash : ℤ) (x y z : ℝ) : ℝ :=
  let h : ℕ := (hash % 16).toNat
  let u : ℝ := if h < 8 then x else y
  let v : ℝ := if h < 4 then y else if h = 12 ∨ h = 14 then x else z
  (if h % 2 = 0 then u else -u) + (if h / 2 % 2 = 0 then v else -v)

/-- Two-dimensional sampling `PseudoNoise.noise2D`, parametrised by the base
table `p` built in the constructor.  The 512-entry wraparound table is
`perm[i] = p[i & 255]`; lattice indices are `Math.floor(x) & 255`. -/
def noise2D (p : ℕ → ℤ) (x y : ℝ) : ℝ :=
  let perm : ℤ → ℤ := fun i => p ((i % 256).toNat)
  let X : ℤ := ⌊x⌋ % 256
  let Y : ℤ := ⌊y⌋ % 256
  let xf : ℝ := x - ⌊x⌋
  let yf : ℝ := y - ⌊y⌋
  let u := fade xf
  let v := fade yf
  let A := perm X + Y
  let AA := perm A
  let AB := perm (A + 1)
  let B := perm (X + 1) + Y
  let BA := perm B
  let BB := perm (B + 1)
  lerp v (lerp u (grad (perm AA) xf yf 0) (grad (perm BA) (xf - 1) yf 0))
    (lerp u (grad (perm AB) xf (yf - 1) 0) (grad (perm BB) (xf - 1) (yf - 1) 0))

/-- Base table of the `PseudoNoise` constructor:
`p[i] = Math.floor(Math.abs(Math.sin(seed + i)) * 256)`. -/
def pTable (seed : ℝ) : ℕ → ℤ := fun i => ⌊|Real.sin (seed + i)| * 256⌋

/-- Seed of the module-level singleton `export const noise = new
PseudoNoise(Math.random() * 1000)`, as a function of the `Math.random()`
draw of the run. -/
def noiseSingletonSeed (r : ℝ) : ℝ := r * 1000

/-! ### Terrain constants and `getTerrainHeight` (utils/math.ts) -/

def AMPLITUDE : ℝ := 25

def FREQUENCY : ℝ := 0.012

def WATER_LEVEL : ℝ := 1.8

def SAND_LEVEL : ℝ := 3.8

def GRASS_LEVEL : ℝ := 14.0

def ROCK_LEVEL : ℝ := 22.0

def TREELINE : ℝ := 18.0

/-- Shared terrain height function, layered noise plus valley flattening. -/
def getTerrainHeight (p : ℕ → ℤ) (x z : ℝ) : ℝ :=
  let y0 : ℝ := 0
  let y1 := y0 + noise2D p (x * FREQUENCY) (z * FREQUENCY) * AMPLITUDE
  let y2 := y1 + noise2D p (x * FREQUENCY * 2.5) (z * FREQUENCY * 2.5) * (AMPLITUDE / 4)
  let y3 := y2 + noise2D p (x * FREQUENCY * 6) (z * FREQUENCY * 6) * (AMPLITUDE / 10)
  let y4 := y3 + noise2D p (x * FREQUENCY * 15) (z * FREQUENCY * 15) * (AMPLITUDE / 30)
  if y4 < 0 then y4 * 0.6 else y4

/-- Raw four-octave sum before the valley-flattening post-process, as the
specification describes it: frequencies `F, 2.5F, 6F, 15F` and amplitudes
`A, A/4, A/10, A/30` with `A = 25`, `F = 0.012`. -/
def rawOctaveSum (p : ℕ → ℤ) (x z : ℝ) : ℝ :=
  noise2D p (x * 0.012) (z * 0.012) * 25
    + noise2D p (x * 0.03) (z * 0.03) * (25 / 4)
    + noise2D p (x * 0.072) (z * 0.072) * (25 / 10)
    + noise2D p (x * 0.18) (z * 0.18) * (25 / 30)

/-! ### Terrain colour classifier of `TerrainChunk` (Terrain.tsx) -/

/-- three.js colour as an rgb triple of floats in the unit range. -/
structure Col where
  r : ℝ
  g : ℝ
  b : ℝ

namespace Col

def smulC (c : Col) (s : ℝ) : Col := ⟨c.r * s, c.g * s, c.b * s⟩

/-- three.js `Color.lerp(color, alpha)`: componentwise `this += (color - this) * alpha`. -/
def lerpC (c d : Col) (a : ℝ) : Col :=
  ⟨c.r + (d.r - c.r) * a, c.g + (d.g - c.g) * a, c.b + (d.b - c.b) * a⟩

end Col

def colorWater : Col := ⟨42 / 255, 76 / 255, 94 / 255⟩

def colorSand : Col := ⟨138 / 255, 127 / 255, 107 / 255⟩

def colorGrass : Col := ⟨61 / 255, 84 / 255, 45 / 255⟩

def colorDarkGrass : Col := ⟨42 / 255, 61 / 255, 32 / 255⟩

def colorRock : Col := ⟨74 / 255, 74 / 255, 77 / 255⟩

def colorDarkRock : Col := ⟨54 / 255, 54 / 255, 56 / 255⟩

def colorSnow : Col := ⟨240 / 255, 240 / 255, 245 / 255⟩

/-- Per-vertex colour classification of `TerrainChunk`, as a function of the
vertex elevation `y`, the vertical normal component `ny`, and the two noise
samples `n = noise2D(x*0.15, z*0.15)` and `microN = noise2D(x*0.8, z*0.8)`
taken at the vertex. -/
def classify (y ny n microN : ℝ) : Col :=
  if y < WATER_LEVEL - 1 then Col.smulC colorSand 0.7
  else if y < WATER_LEVEL + 0.5 then colorSand
  else
    if ny < 0.65 then
      if y > ROCK_LEVEL + 15 then
        let snowStartHeight := ROCK_LEVEL + 25
        if y > snowStartHeight then colorSnow
        else
          let snowBlend := (y - snowStartHeight + 10) / 10
          Col.lerpC (if n > 0 then colorRock else colorDarkRock) colorSnow
            (max 0 (min 1 snowBlend))
      else Col.smulC (if n > 0 then colorRock else colorDarkRock) (0.9 + microN * 0.2)
    else
      if y < SAND_LEVEL then Col.lerpC colorSand colorGrass 0.3
      else if y < ROCK_LEVEL then
        let base := if n > 0.2 then colorGrass else colorDarkGrass
        if ny < 0.85 then Col.lerpC base colorRock 0.4 else base
      else
        let snowThreshold :=
          if y > ROCK_LEVEL + 20 then ROCK_LEVEL + 20 + n * 3 else ROCK_LEVEL + n * 5
        if y > snowThreshold then colorSnow
        else
          let transitionStart := snowThreshold - 5
          if y > transitionStart then
            let blend := (y - transitionStart) / 5
            Col.lerpC colorDarkRock colorSnow (max 0 (min 1 blend))
          else colorDarkRock

/-- Classification of the gentle-slope grass band as claim C8 words it:
grass or dark grass chosen by the sign of the macro-noise sample, blended
forty percent toward rock exactly when the normal is below 0.85. -/
def classifyGrassBandClaim (ny n : ℝ) : Col :=
  let base := if n > 0 then colorGrass else colorDarkGrass
  if ny < 0.85 then Col.lerpC base colorRock 0.4 else base

/-! ### Chunk streamer of `InfiniteWorld` (Terrain.tsx) -/

def CHUNK_SIZE : ℝ := 200

def RENDER_DISTANCE : ℤ := 2

/-- Loop offsets `-RENDER_DISTANCE .. RENDER_DISTANCE`, in loop order. -/
def chunkOffsets : List ℤ := [-2, -1, 0, 1, 2]

/-- The grid of coordinates pushed by the nested loops of `InfiniteWorld`
for a given focus chunk. -/
def chunkGrid (cx cz : ℤ) : List (ℤ × ℤ) :=
  chunkOffsets.flatMap fun dx => chunkOffsets.map fun dz => (cx + dx, cz + dz)

/-- Focus chunk coordinate `Math.round(focus / CHUNK_SIZE)`; JavaScript
`Math.round` rounds half up, which is Lean's `round`. -/
def focusChunk (f : ℝ) : ℤ := round (f / CHUNK_SIZE)

/-- Per-frame update of `visibleChunks`.  The source keeps the old state
when the string keys agree and replaces it otherwise; the string key
`x1,z1|x2,z2|...` is injective on coordinate lists, so the comparison is
modelled by list equality. -/
def updateChunks (cur : List (ℤ × ℤ)) (fx fz : ℝ) : List (ℤ × ℤ) :=
  let newChunks := chunkGrid (focusChunk fx) (focusChunk fz)
  if cur = newChunks then cur else newChunks

/-! ### Weather interpolation of `SceneContent` (Scene.tsx) -/

/-- three.js `MathUtils.lerp(x, y, t) = (1 - t) * x + t * y`. -/
def mlerp (x y t : ℝ) : ℝ := (1 - t) * x + t * y

/-- One frame of the scalar weather lerp with frame delta `delta`:
`current = lerp(current, target, delta * 1.5)`. -/
def weatherScalarStep (current target delta : ℝ) : ℝ :=
  mlerp current target (delta * 1.5)

/-- Iterated rain-intensity update over a sequence of frame deltas. -/
def rainRun (target init : ℝ) (deltas : List ℝ) : ℝ :=
  deltas.foldl (fun c delta => weatherScalarStep c target delta) init

/-- One frame of the wind-direction update:
`windDirection.lerp(targetParams.windDirection, delta * 1.5)`, with no
renormalisation afterwards. -/
def windStep (current target : Vec3) (delta : ℝ) : Vec3 :=
  current.lerpV target (delta * 1.5)

/-- DAY preset wind direction `new Vector3(1, 0, 0.5).normalize()`. -/
def dayWindDirection : Vec3 := Vec3.normalize ⟨1, 0, 0.5⟩

/-- CLOUDY preset wind direction `new Vector3(0.5, 0, 0.8).normalize()`. -/
def cloudyWindDirection : Vec3 := Vec3.normalize ⟨0.5, 0, 0.8⟩

/-- DAY preset rain intensity. -/
def dayRainIntensity : ℝ := 0.0

/-- CLOUDY preset rain intensity. -/
def cloudyRainIntensity : ℝ := 0.2

/-! ### Flock simulation pieces (Flock.tsx) -/

def maxSpeed : ℝ := 0.8

def minSpeed : ℝ := 0.4

def maxForce : ℝ := 0.03

def separationWeight : ℝ := 3.5

def alignmentWeight : ℝ := 1.0

def cohesionWeight : ℝ := 1.0

def seekWeight : ℝ := 0.6

def avoidanceWeight : ℝ := 12.0

def canopyWeight : ℝ := 8.0

def cameraRepulsionRadius : ℝ := 25

def cameraRepulsionWeight : ℝ := 10.0

/-- Common shape of the separation, alignment, cohesion and seek-wander
contributions: `dir.normalize().multiplyScalar(maxSpeed).sub(velocity)
.clampLength(0, maxForce).multiplyScalar(weight)`. -/
def boidSteer (dir vel : Vec3) (weight : ℝ) : Vec3 :=
  ((((dir.normalize).smul maxSpeed).sub vel).clampLength 0 maxForce).smul weight

/-- Camera-repulsion contribution added to a bird's acceleration: active
inside `cameraRepulsionRadius`, quadratic falloff, scaled by
`cameraRepulsionWeight`, with no clamp to `maxForce`. -/
def cameraRepulsion (pos cam : Vec3) : Vec3 :=
  if pos.distanceToSquared cam < cameraRepulsionRadius * cameraRepulsionRadius then
    let dist := Real.sqrt (pos.distanceToSquared cam)
    let strength := (1 - dist / cameraRepulsionRadius) ^ 2
    ((pos.sub cam).normalize).smul (strength * cameraRepulsionWeight)
  else ⟨0, 0, 0⟩

/-- Vertical ground-avoidance contribution: quadratic push-up when the
clearance above the terrain is below four units, with no clamp to
`maxForce`. -/
def groundAvoidance (clearance : ℝ) : Vec3 :=
  if clearance < 4 then
    (Vec3.mk 0 1 0).smul ((4 - clearance) ^ 2 * 0.5 * avoidanceWeight)
  else ⟨0, 0, 0⟩

/-- Ceiling rule at the end of the force pass: birds above `y = 100` get an
extra downward acceleration of `maxForce * 1.5`. -/
def ceilingStep (posY : ℝ) (acc : Vec3) : Vec3 :=
  if posY > 100 then ⟨acc.x, acc.y - maxForce * 1.5, acc.z⟩ else acc

/-- Integration step of the flock update:
`velocity.add(acceleration); velocity.clampLength(minSpeed, maxSpeed)`. -/
def integrate (vel acc : Vec3) : Vec3 :=
  (vel.add acc).clampLength minSpeed maxSpeed

/-! ### Flora placement of `NatureChunk` (Rain.tsx) -/

def TREES_PER_CHUNK : ℕ := 150

/-- Truncating integer division result used by the JavaScript `%` operator. -/
def jsTrunc (x : ℝ) : ℤ := if 0 ≤ x then ⌊x⌋ else -⌊-x⌋

/-- JavaScript remainder `a % n` (sign of the dividend). -/
def jsMod (a n : ℝ) : ℝ := a - n * jsTrunc (a / n)

/-- One step of the chunk-seeded linear congruential generator:
`seed = (seed * 9301 + 49297) % 233280`. -/
def lcg (s : ℝ) : ℝ := jsMod (s * 9301 + 49297) 233280

/-- Value returned by `random()` after the seed update: `seed / 233280`. -/
def randVal (s : ℝ) : ℝ := s / 233280

/-- Flora instance data recorded per accepted tree.  Colours are recorded as
the raw HSL parameters passed to `Color.setHSL`. -/
structure TreeDatum where
  position : Vec3
  scale : Vec3
  rotationY : ℝ
  tiltX : ℝ
  tiltZ : ℝ
  leafHSL : ℝ × ℝ × ℝ
  trunkHSL : ℝ × ℝ × ℝ
  phase : ℝ

/-- Acceptance condition of one placement attempt, as the code implements
it: the elevation band check, the clustering gate `clusterNoise < -0.2 →
continue`, and the sparsity gate `random() > 0.75 → continue` on the draw
`r`. -/
def codeAccepts (y absX absZ r : ℝ) : Prop :=
  y > WATER_LEVEL + 0.5 ∧ y < TREELINE ∧
    ¬(Real.sin (absX * 0.05) * Real.cos (absZ * 0.05) < -0.2) ∧ ¬(r > 0.75)

/-- Acceptance condition as claim C7 words it: elevation in
`(waterLevel + 0.5, treeline)`, clustering gate
`sin(x*0.05)*cos(z*0.05) >= -0.2`, and a further gate that accepts a quarter
of the uniform draws. -/
def claimAccepts (y absX absZ r : ℝ) : Prop :=
  y > WATER_LEVEL + 0.5 ∧ y < TREELINE ∧
    Real.sin (absX * 0.05) * Real.cos (absZ * 0.05) ≥ -0.2 ∧ r > 0.75

/-- Rejection-sampling loop of `NatureChunk`'s `treeData`, with the draw
sequence threaded exactly as in the source (two draws for the candidate
position, one sparsity draw once the position gates pass, and eleven
further draws for the accepted instance).  `fuel` counts the remaining of
the `TREES_PER_CHUNK * 2.5` loop iterations. -/
def treeLoop (p : ℕ → ℤ) (chunkX chunkZ size : ℝ) :
    ℕ → ℝ → ℕ → List TreeDatum → List TreeDatum
  | 0, _, _, acc => acc
  | fuel + 1, seed, count, acc =>
    if TREES_PER_CHUNK ≤ count then acc
    else
      let s1 := lcg seed
      let lx := (randVal s1 - 0.5) * size
      let s2 := lcg s1
      let lz := (randVal s2 - 0.5) * size
      let absX := chunkX * size + lx
      let absZ := chunkZ * size + lz
      let y := getTerrainHeight p absX absZ
      if y > WATER_LEVEL + 0.5 ∧ y < TREELINE then
        if Real.sin (absX * 0.05) * Real.cos (absZ * 0.05) < -0.2 then
          treeLoop p chunkX chunkZ size fuel s2 count acc
        else
          let s3 := lcg s2
          if randVal s3 > 0.75 then treeLoop p chunkX chunkZ size fuel s3 count acc
          else
            let s4 := lcg s3
            let baseScale := 0.7 + randVal s4 * 1.0
            let s5 := lcg s4
            let heightMult := 0.8 + randVal s5 * 0.4
            let s6 := lcg s5
            let rotationY := randVal s6 * (2 * Real.pi)
            let s7 := lcg s6
            let tiltX := (randVal s7 - 0.5) * 0.15
            let s8 := lcg s7
            let tiltZ := (randVal s8 - 0.5) * 0.15
            let s9 := lcg s8
            let s10 := lcg s9
            let s11 := lcg s10
            let leafHSL : ℝ × ℝ × ℝ :=
              (0.35 + randVal s9 * 0.08, 0.4 + randVal s10 * 0.2, 0.1 + randVal s11 * 0.15)
            let s12 := lcg s11
            let s13 := lcg s12
            let trunkHSL : ℝ × ℝ × ℝ := (0.07 + randVal s12 * 0.03, 0.2, 0.12 + randVal s13 * 0.05)
            let s14 := lcg s13
            let phase := randVal s14 * (2 * Real.pi)
            let datum : TreeDatum :=
              { position := ⟨lx, y - 0.3, lz⟩
                scale := ⟨baseScale, baseScale * heightMult, baseScale⟩
                rotationY := rotationY, tiltX := tiltX, tiltZ := tiltZ
                leafHSL := leafHSL, trunkHSL := trunkHSL, phase := phase }
            treeLoop p chunkX chunkZ size fuel s14 (count + 1) (acc ++ [datum])
      else treeLoop p chunkX chunkZ size fuel s2 count acc

/-- Flora layout of a chunk: seed `chunkX * 43758.5453 + chunkZ * 23421.6543`
and at most `TREES_PER_CHUNK * 2.5 = 375` attempts. -/
def treeData (p : ℕ → ℤ) (chunkX chunkZ size : ℝ) : List TreeDatum :=
  treeLoop p chunkX chunkZ size 375 (chunkX * 43758.5453 + chunkZ * 23421.6543) 0 []

/-! ### Claim C10: flock altitude ceiling -/

/-- C10: in any tick, a bird whose `position.y` exceeds 100 at
force-accumulation time gets an extra downward acceleration of magnitude
`maxForce * 1.5 = 0.045` added to `acceleration.y`, and no ceiling force is
applied when `position.y <= 100`. -/
theorem c10_ceiling (posY : ℝ) (acc : Vec3) :
    (100 < posY → ceilingStep posY acc = ⟨acc.x, acc.y - 0.045, acc.z⟩) ∧
      (posY ≤ 100 → ceilingStep posY acc = acc) := by
  constructor
  · intro h
    simp only [ceilingStep, maxForce, if_pos h]
    norm_num
  · intro h
    simp only [ceilingStep]
    rw [if_neg (by linarith)]

/-- Witness for C10 at a bird above and a bird below the ceiling. -/
theorem c10_witness :
    ceilingStep 101 ⟨0, 0, 0⟩ = ⟨0, -0.045, 0⟩ ∧ ceilingStep 50 ⟨0, 0, 0⟩ = ⟨0, 0, 0⟩ := by
  constructor
  · rw [(c10_ceiling 101 ⟨0, 0, 0⟩).1 (by norm_num)]
    norm_num
  · exact (c10_ceiling 50 ⟨0, 0, 0⟩).2 (by norm_num)

/-! ### Claim C3: the active chunk set is exactly the 5 x 5 grid -/

lemma updateChunks_eq (cur : List (ℤ × ℤ)) (fx fz : ℝ) :
    updateChunks cur fx fz = chunkGrid (focusChunk fx) (focusChunk fz) := by
  unfold updateChunks
  dsimp only
  split_ifs with h
  · exact h
  · rfl

lemma mem_chunkGrid (cx cz : ℤ) (c : ℤ × ℤ) :
    c ∈ chunkGrid cx cz ↔ |c.1 - cx| ≤ 2 ∧ |c.2 - cz| ≤ 2 := by
  obtain ⟨a, b⟩ := c
  simp only [chunkGrid, chunkOffsets, List.mem_flatMap, List.mem_map,
    List.mem_cons, List.mem_singleton, List.mem_nil_iff, or_false, Prod.mk.injEq]
  rw [abs_le, abs_le]
  constructor
  · rintro ⟨dx, hdx, dz, hdz, h1, h2⟩
    omega
  · rintro ⟨h1, h2⟩
    refine ⟨a - cx, by omega, b - cz, by omega, by omega, by omega⟩

lemma chunkOffsets_nodup : chunkOffsets.Nodup := by decide

lemma chunkGrid_nodup (cx cz : ℤ) : (chunkGrid cx cz).Nodup := by
  rw [chunkGrid, List.nodup_flatMap]
  constructor
  · intro dx _
    refine List.Nodup.map ?_ chunkOffsets_nodup
    intro a b h
    have : cz + a = cz + b := by simpa using h
    omega
  · have hp : chunkOffsets.Pairwise (· ≠ ·) := chunkOffsets_nodup
    refine hp.imp ?_
    intro a b hne q hqa hqb
    simp only [List.mem_map] at hqa hqb
    obtain ⟨dz, _, rfl⟩ := hqa
    obtain ⟨dz', _, heq⟩ := hqb
    have : cx + b = cx + a := congrArg Prod.fst heq
    omega

/-- C3: after the chunk streamer updates for a focus position, the active
chunk list is exactly the `(2R+1)^2 = 25` grid coordinates centred on
`(round(focus.x / size), round(focus.z / size))`, whatever the previous
state was: membership is characterised by the Chebyshev distance, the list
has 25 entries, and no coordinate repeats. -/
theorem c3_active_set_exact (cur : List (ℤ × ℤ)) (fx fz : ℝ) :
    (∀ c : ℤ × ℤ, c ∈ updateChunks cur fx fz ↔
        |c.1 - focusChunk fx| ≤ 2 ∧ |c.2 - focusChunk fz| ≤ 2) ∧
      (updateChunks cur fx fz).length = 25 ∧ (updateChunks cur fx fz).Nodup := by
  rw [updateChunks_eq]
  refine ⟨fun c => mem_chunkGrid _ _ c, ?_, chunkGrid_nodup _ _⟩
  rfl

/-! ### Claim C9: rain-intensity convergence -/

/-- C9 counterexample: one positive frame delta of six seconds (a total of
more than five seconds) overshoots instead of converging: starting from the
DAY rain intensity 0 and chasing the CLOUDY preset 0.2, the update lands at
1.8, which is not within a thousandth of the preset. -/
theorem c9_counterexample :
    (∀ d ∈ [(6 : ℝ)], 0 < d) ∧ ([(6 : ℝ)]).sum > 5 ∧
      ¬(|rainRun cloudyRainIntensity dayRainIntensity [(6 : ℝ)] - cloudyRainIntensity|
        < 1 / 1000) := by
  refine ⟨?_, by norm_num, ?_⟩
  · intro d hd
    rw [List.mem_singleton] at hd
    rw [hd]; norm_num
  · simp only [rainRun, List.foldl, weatherScalarStep, mlerp, dayRainIntensity,
      cloudyRainIntensity]
    norm_num
    rw [abs_of_nonneg (by norm_num : (0:ℝ) ≤ 8 / 5)]
    norm_num

lemma rainRun_error_le (t : ℝ) :
    ∀ (deltas : List ℝ) (c : ℝ), (∀ d ∈ deltas, 0 < d ∧ d ≤ 2 / 3) →
      |rainRun t c deltas - t| ≤ |c - t| * Real.exp (-(1.5 * deltas.sum)) := by
  intro deltas
  induction deltas with
  | nil =>
    intro c _
    simp [rainRun, Real.exp_zero]
  | cons d ds ih =>
    intro c hmem
    have hd := hmem d (List.mem_cons_self d ds)
    have hstep : rainRun t c (d :: ds) = rainRun t (weatherScalarStep c t d) ds := rfl
    have h1 : |weatherScalarStep c t d - t| ≤ |c - t| * Real.exp (-(1.5 * d)) := by
      have hfac : |weatherScalarStep c t d - t| = (1 - 1.5 * d) * |c - t| := by
        have : weatherScalarStep c t d - t = (1 - 1.5 * d) * (c - t) := by
          simp only [weatherScalarStep, mlerp]; ring
        rw [this, abs_mul, abs_of_nonneg (by linarith [hd.2] : (0:ℝ) ≤ 1 - 1.5 * d)]
      have hexp : 1 - 1.5 * d ≤ Real.exp (-(1.5 * d)) := by
        have := Real.add_one_le_exp (-(1.5 * d))
        linarith
      rw [hfac]
      calc (1 - 1.5 * d) * |c - t| ≤ Real.exp (-(1.5 * d)) * |c - t| :=
            mul_le_mul_of_nonneg_right hexp (abs_nonneg _)
        _ = |c - t| * Real.exp (-(1.5 * d)) := mul_comm _ _
    have h2 := ih (weatherScalarStep c t d) (fun x hx => hmem x (List.mem_cons_of_mem d hx))
    rw [hstep]
    calc |rainRun t (weatherScalarStep c t d) ds - t|
        ≤ |weatherScalarStep c t d - t| * Real.exp (-(1.5 * ds.sum)) := h2
      _ ≤ |c - t| * Real.exp (-(1.5 * d)) * Real.exp (-(1.5 * ds.sum)) :=
          mul_le_mul_of_nonneg_right h1 (Real.exp_nonneg _)
      _ = |c - t| * Real.exp (-(1.5 * (d :: ds).sum)) := by
          rw [mul_assoc, ← Real.exp_add, List.sum_cons]
          ring_nf

/-- C9 as it actually holds: the per-frame update
`current = lerp(current, target, delta * 1.5)` contracts toward the target
only while `delta * 1.5` stays at most one; restricted to frame deltas of at
most two-thirds of a second and an initial rain intensity within 0.2 of the
target (the two presets are 0 and 0.2 apart), any step sequence totalling
more than five seconds lands within a thousandth of the target.  For larger
deltas the factor is applied unclamped and the update can overshoot
arbitrarily far, as the counterexample shows. -/
theorem c9_amended (target init : ℝ) (deltas : List ℝ)
    (hinit : |init - target| ≤ 1 / 5)
    (hd : ∀ d ∈ deltas, 0 < d ∧ d ≤ 2 / 3) (hsum : 5 < deltas.sum) :
    |rainRun target init deltas - target| < 1 / 1000 := by
  have h := rainRun_error_le target deltas init hd
  have hexp200 : (200 : ℝ) < Real.exp 7.5 := by
    have h1 : (1.75 : ℝ) ≤ Real.exp 0.75 := by
      have := Real.add_one_le_exp (0.75 : ℝ)
      linarith
    calc (200 : ℝ) < 1.75 ^ 10 := by norm_num
      _ ≤ Real.exp 0.75 ^ 10 := pow_le_pow_left₀ (by norm_num) h1 10
      _ = Real.exp ((10 : ℕ) * 0.75) := (Real.exp_nat_mul 0.75 10).symm
      _ = Real.exp 7.5 := by norm_num
  have hmono : Real.exp (-(1.5 * deltas.sum)) < Real.exp (-7.5) :=
    Real.exp_lt_exp.mpr (by linarith)
  have hneg : Real.exp (-7.5) < 1 / 200 := by
    rw [Real.exp_neg]
    rw [inv_lt_comm₀ (Real.exp_pos _) (by norm_num)]
    · calc (1 / 200 : ℝ)⁻¹ = 200 := by norm_num
        _ < Real.exp 7.5 := hexp200
  calc |rainRun target init deltas - target|
      ≤ |init - target| * Real.exp (-(1.5 * deltas.sum)) := h
    _ ≤ (1 / 5) * Real.exp (-(1.5 * deltas.sum)) :=
        mul_le_mul_of_nonneg_right hinit (Real.exp_nonneg _)
    _ < (1 / 5) * (1 / 200) := by
        have := hmono.trans hneg
        nlinarith [Real.exp_pos (-(1.5 * deltas.sum))]
    _ = 1 / 1000 := by norm_num

/-- Witness for C9: nine frame deltas of 0.6 seconds starting from rain
intensity 0 chasing the CLOUDY preset 0.2. -/
theorem c9_witness :
    |(0 : ℝ) - 0.2| ≤ 1 / 5 ∧ ((5 : ℝ) < (List.replicate 9 (0.6 : ℝ)).sum) ∧
      |rainRun 0.2 0 (List.replicate 9 (0.6 : ℝ)) - 0.2| < 1 / 1000 := by
  have habs : |(0 : ℝ) - 0.2| ≤ 1 / 5 := by
    rw [abs_sub_comm, sub_zero, abs_of_nonneg (by norm_num : (0:ℝ) ≤ 0.2)]
    norm_num
  refine ⟨habs, by simp [List.sum_replicate]; norm_num, ?_⟩
  apply c9_amended 0.2 0 _ habs ?_ ?_
  · intro d hd
    rw [List.mem_replicate] at hd
    rw [hd.2]; norm_num
  · simp [List.sum_replicate]; norm_num

/-! ### Claim C1: terrain height structure and boundedness -/

lemma fade_nonneg {t : ℝ} (h0 : 0 ≤ t) (_h1 : t ≤ 1) : 0 ≤ fade t := by
  unfold fade
  nlinarith [sq_nonneg (2 * t - 5 / 2), mul_nonneg (mul_nonneg h0 h0) h0]

lemma fade_le_one {t : ℝ} (h0 : 0 ≤ t) (h1 : t ≤ 1) : fade t ≤ 1 := by
  unfold fade
  nlinarith [mul_nonneg (mul_nonneg (by linarith : (0:ℝ) ≤ 1 - t) (by linarith : (0:ℝ) ≤ 1 - t))
    (by linarith : (0:ℝ) ≤ 1 - t), sq_nonneg t, mul_nonneg h0 h0]

lemma abs_lerp_le {t a b M : ℝ} (h0 : 0 ≤ t) (h1 : t ≤ 1) (ha : |a| ≤ M) (hb : |b| ≤ M) :
    |lerp t a b| ≤ M := by
  unfold lerp
  have heq : a + t * (b - a) = (1 - t) * a + t * b := by ring
  rw [heq]
  calc |(1 - t) * a + t * b| ≤ |(1 - t) * a| + |t * b| := abs_add _ _
    _ = (1 - t) * |a| + t * |b| := by
        rw [abs_mul, abs_mul, abs_of_nonneg (by linarith : (0:ℝ) ≤ 1 - t), abs_of_nonneg h0]
    _ ≤ (1 - t) * M + t * M := by
        have := mul_le_mul_of_nonneg_left ha (by linarith : (0:ℝ) ≤ 1 - t)
        have := mul_le_mul_of_nonneg_left hb h0
        linarith
    _ = M := by ring

lemma abs_grad_le (hash : ℤ) {x y z : ℝ} (hx : |x| ≤ 1) (hy : |y| ≤ 1) (hz : |z| ≤ 1) :
    |grad hash x y z| ≤ 2 := by
  simp only [grad]
  set h := (hash % 16).toNat with hh
  have h1 : |if h < 8 then x else y| ≤ 1 := by split <;> assumption
  have h2 : |if h < 4 then y else if h = 12 ∨ h = 14 then x else z| ≤ 1 := by
    split
    · assumption
    · split <;> assumption
  have h3 : |if h % 2 = 0 then (if h < 8 then x else y) else -(if h < 8 then x else y)| ≤ 1 := by
    split
    · exact h1
    · rwa [abs_neg]
  have h4 : |if h / 2 % 2 = 0 then (if h < 4 then y else if h = 12 ∨ h = 14 then x else z)
      else -(if h < 4 then y else if h = 12 ∨ h = 14 then x else z)| ≤ 1 := by
    split
    · exact h2
    · rwa [abs_neg]
  exact (abs_add _ _).trans (by linarith)

lemma abs_noise2D_le (p : ℕ → ℤ) (x y : ℝ) : |noise2D p x y| ≤ 2 := by
  simp only [noise2D]
  have hxf0 : (0:ℝ) ≤ x - ⌊x⌋ := sub_nonneg.mpr (Int.floor_le x)
  have hxf1 : x - ⌊x⌋ < 1 := by linarith [Int.lt_floor_add_one x]
  have hyf0 : (0:ℝ) ≤ y - ⌊y⌋ := sub_nonneg.mpr (Int.floor_le y)
  have hyf1 : y - ⌊y⌋ < 1 := by linarith [Int.lt_floor_add_one y]
  have hax : |x - ⌊x⌋| ≤ 1 := by rw [abs_of_nonneg hxf0]; linarith
  have hax' : |x - ⌊x⌋ - 1| ≤ 1 := by rw [abs_of_nonpos (by linarith)]; linarith
  have hay : |y - ⌊y⌋| ≤ 1 := by rw [abs_of_nonneg hyf0]; linarith
  have hay' : |y - ⌊y⌋ - 1| ≤ 1 := by rw [abs_of_nonpos (by linarith)]; linarith
  have h0 : |(0:ℝ)| ≤ 1 := by norm_num
  exact abs_lerp_le (fade_nonneg hyf0 (by linarith)) (fade_le_one hyf0 (by linarith))
    (abs_lerp_le (fade_nonneg hxf0 (by linarith)) (fade_le_one hxf0 (by linarith))
      (abs_grad_le _ hax hay h0) (abs_grad_le _ hax' hay h0))
    (abs_lerp_le (fade_nonneg hxf0 (by linarith)) (fade_le_one hxf0 (by linarith))
      (abs_grad_le _ hax hay' h0) (abs_grad_le _ hax' hay' h0))

lemma getTerrainHeight_eq_ite (p : ℕ → ℤ) (x z : ℝ) :
    getTerrainHeight p x z =
      if rawOctaveSum p x z < 0 then rawOctaveSum p x z * 0.6 else rawOctaveSum p x z := by
  simp only [getTerrainHeight, rawOctaveSum, AMPLITUDE, FREQUENCY]
  ring_nf

/-- C1: for every base table and all real inputs, the terrain height is the
sum of four noise octaves at frequencies 0.012, 0.03, 0.072, 0.18 (that is
F, 2.5F, 6F, 15F with F = 0.012) and amplitudes 25, 25/4, 25/10, 25/30
(A, A/4, A/10, A/30 with A = 25); the sum is multiplied by 0.6 exactly when
it is negative and returned unchanged otherwise; and the result is bounded
by 415/6 in absolute value, hence finite for all finite inputs however
large. -/
theorem c1_height_structure_and_bound (p : ℕ → ℤ) (x z : ℝ) :
    (rawOctaveSum p x z < 0 → getTerrainHeight p x z = rawOctaveSum p x z * 0.6) ∧
      (0 ≤ rawOctaveSum p x z → getTerrainHeight p x z = rawOctaveSum p x z) ∧
      |getTerrainHeight p x z| ≤ 415 / 6 := by
  obtain ⟨l1, u1⟩ := abs_le.mp (abs_noise2D_le p (x * 0.012) (z * 0.012))
  obtain ⟨l2, u2⟩ := abs_le.mp (abs_noise2D_le p (x * 0.03) (z * 0.03))
  obtain ⟨l3, u3⟩ := abs_le.mp (abs_noise2D_le p (x * 0.072) (z * 0.072))
  obtain ⟨l4, u4⟩ := abs_le.mp (abs_noise2D_le p (x * 0.18) (z * 0.18))
  have hrawb : |rawOctaveSum p x z| ≤ 415 / 6 := by
    rw [rawOctaveSum, abs_le]
    constructor <;> nlinarith
  refine ⟨fun h => ?_, fun h => ?_, ?_⟩
  · rw [getTerrainHeight_eq_ite, if_pos h]
  · rw [getTerrainHeight_eq_ite, if_neg (by linarith)]
  · rw [getTerrainHeight_eq_ite]
    obtain ⟨lr, ur⟩ := abs_le.mp hrawb
    split_ifs with h
    · rw [abs_le]
      constructor <;> nlinarith
    · rw [abs_le]
      exact ⟨lr, ur⟩

/-- Witness for C1 at the zero table and the origin, where the raw octave
sum evaluates to zero. -/
theorem c1_witness :
    0 ≤ rawOctaveSum (fun _ => 0) 0 0 ∧
      getTerrainHeight (fun _ => 0) 0 0 = rawOctaveSum (fun _ => 0) 0 0 := by
  have hz : rawOctaveSum (fun _ => 0) 0 0 = 0 := by
    simp [rawOctaveSum, noise2D, grad, lerp, fade]
  refine ⟨by rw [hz], (c1_height_structure_and_bound (fun _ => 0) 0 0).2.1 (by rw [hz])⟩

/-! ### Vector length lemmas for the flock and weather claims -/

lemma Vec3.lengthSq_nonneg (v : Vec3) : 0 ≤ v.lengthSq :=
  add_nonneg (add_nonneg (mul_self_nonneg _) (mul_self_nonneg _)) (mul_self_nonneg _)

lemma Vec3.length_nonneg (v : Vec3) : 0 ≤ v.length := Real.sqrt_nonneg _

lemma Vec3.length_eq_zero_iff (v : Vec3) : v.length = 0 ↔ v = ⟨0, 0, 0⟩ := by
  obtain ⟨a, b, c⟩ := v
  constructor
  · intro h
    have h0 : a * a + b * b + c * c ≤ 0 := Real.sqrt_eq_zero'.mp h
    have ha : a * a = 0 := le_antisymm (by nlinarith [mul_self_nonneg b, mul_self_nonneg c])
      (mul_self_nonneg a)
    have hb : b * b = 0 := le_antisymm (by nlinarith [mul_self_nonneg a, mul_self_nonneg c])
      (mul_self_nonneg b)
    have hc : c * c = 0 := le_antisymm (by nlinarith [mul_self_nonneg a, mul_self_nonneg b])
      (mul_self_nonneg c)
    simp only [Vec3.mk.injEq]
    exact ⟨mul_self_eq_zero.mp ha, mul_self_eq_zero.mp hb, mul_self_eq_zero.mp hc⟩
  · intro h
    rw [h]
    simp [Vec3.length, Vec3.lengthSq]

lemma Vec3.lengthSq_smul (v : Vec3) (s : ℝ) : (v.smul s).lengthSq = s ^ 2 * v.lengthSq := by
  simp only [Vec3.smul, Vec3.lengthSq]
  ring

lemma Vec3.length_smul (v : Vec3) (s : ℝ) : (v.smul s).length = |s| * v.length := by
  simp only [Vec3.length, Vec3.lengthSq_smul]
  rw [Real.sqrt_mul (sq_nonneg s), Real.sqrt_sq_eq_abs]

lemma Vec3.clampLength_length_of_ne (v : Vec3) (lo hi : ℝ) (hlo : 0 ≤ lo)
    (hv : v.length ≠ 0) : (v.clampLength lo hi).length = max lo (min hi v.length) := by
  simp only [Vec3.clampLength, if_neg hv]
  rw [Vec3.length_smul, Vec3.length_smul]
  have hvpos : 0 < v.length := lt_of_le_of_ne (Vec3.length_nonneg v) (Ne.symm hv)
  rw [abs_of_nonneg (le_trans hlo (le_max_left _ _)),
    abs_of_nonneg (by positivity : (0:ℝ) ≤ 1 / v.length)]
  field_simp

lemma Vec3.clampLength_length_of_zero (v : Vec3) (lo hi : ℝ) (hv : v.length = 0) :
    (v.clampLength lo hi).length = 0 := by
  simp only [Vec3.clampLength, if_pos hv]
  rw [Vec3.length_smul, Vec3.length_smul, hv]
  ring

/-! ### Claim C4: post-integration speed bounds -/

/-- C4 counterexample: with velocity (0.5, 0, 0) and accumulated
acceleration (-0.5, 0, 0) the pre-clamp velocity is the zero vector;
three.js clampLength divides by `length || 1` and therefore leaves the zero
vector unchanged, so the post-integration speed is 0, below
minSpeed = 0.4. -/
theorem c4_counterexample :
    (integrate ⟨0.5, 0, 0⟩ ⟨-0.5, 0, 0⟩).length = 0 ∧
      ¬(minSpeed ≤ (integrate ⟨0.5, 0, 0⟩ ⟨-0.5, 0, 0⟩).length) := by
  have hadd : Vec3.add ⟨0.5, 0, 0⟩ ⟨-0.5, 0, 0⟩ = (⟨0, 0, 0⟩ : Vec3) := by
    simp only [Vec3.add, Vec3.mk.injEq]
    norm_num
  have hzero : (⟨0, 0, 0⟩ : Vec3).length = 0 := (Vec3.length_eq_zero_iff _).mpr rfl
  have hres : (integrate ⟨0.5, 0, 0⟩ ⟨-0.5, 0, 0⟩).length = 0 := by
    rw [integrate, hadd]
    exact Vec3.clampLength_length_of_zero _ _ _ hzero
  refine ⟨hres, ?_⟩
  rw [hres, minSpeed]
  norm_num

/-- C4 amended: after the integration step the speed never exceeds
maxSpeed = 0.8, and it is at least minSpeed = 0.4 provided the pre-clamp
velocity `velocity + acceleration` is not the zero vector; the zero vector
is a fixed point of clampLength and the only violation of the lower
bound. -/
theorem c4_amended (vel acc : Vec3) :
    (integrate vel acc).length ≤ maxSpeed ∧
      (vel.add acc ≠ ⟨0, 0, 0⟩ → minSpeed ≤ (integrate vel acc).length) := by
  rw [integrate]
  by_cases hw : (vel.add acc).length = 0
  · refine ⟨?_, fun hne => absurd ((Vec3.length_eq_zero_iff _).mp hw) hne⟩
    rw [Vec3.clampLength_length_of_zero _ _ _ hw, maxSpeed]
    norm_num
  · rw [Vec3.clampLength_length_of_ne _ _ _ (by rw [minSpeed]; norm_num) hw]
    have hl0 : 0 ≤ (vel.add acc).length := Vec3.length_nonneg _
    constructor
    · apply max_le
      · rw [minSpeed, maxSpeed]; norm_num
      · exact min_le_left _ _
    · intro _
      exact le_max_left _ _

/-- Witness for C4 with a nonzero pre-clamp velocity. -/
theorem c4_witness :
    Vec3.add ⟨0.4, 0, 0⟩ ⟨0, 0, 0⟩ ≠ (⟨0, 0, 0⟩ : Vec3) ∧
      minSpeed ≤ (integrate ⟨0.4, 0, 0⟩ ⟨0, 0, 0⟩).length := by
  have hne : Vec3.add ⟨0.4, 0, 0⟩ ⟨0, 0, 0⟩ ≠ (⟨0, 0, 0⟩ : Vec3) := by
    simp only [Vec3.add, ne_eq, Vec3.mk.injEq]
    norm_num
  exact ⟨hne, (c4_amended ⟨0.4, 0, 0⟩ ⟨0, 0, 0⟩).2 hne⟩

/-! ### Claim C5: wind-direction unit length under the weather lerp -/

/-- C5 counterexample: one lerp step halfway from the DAY wind direction
toward the CLOUDY wind direction (frame delta one third of a second, so the
lerp factor is one half) produces a vector whose squared length is below
0.99 - far outside any floating-point tolerance of unit length - because
the step lerps componentwise and never renormalises. -/
theorem c5_counterexample :
    dayWindDirection.lengthSq = 1 ∧ cloudyWindDirection.lengthSq = 1 ∧
      (windStep dayWindDirection cloudyWindDirection (1 / 3)).lengthSq < 99 / 100 := by
  set s1 := Real.sqrt 1.25 with hs1def
  set s2 := Real.sqrt 0.89 with hs2def
  have hs1pos : 0 < s1 := Real.sqrt_pos.mpr (by norm_num)
  have hs2pos : 0 < s2 := Real.sqrt_pos.mpr (by norm_num)
  have hs1sq : s1 ^ 2 = 1.25 := Real.sq_sqrt (by norm_num)
  have hs2sq : s2 ^ 2 = 0.89 := Real.sq_sqrt (by norm_num)
  have hlen1 : (Vec3.mk 1 0 0.5).length = s1 := by
    simp only [Vec3.length, Vec3.lengthSq, hs1def]
    norm_num
  have hlen2 : (Vec3.mk 0.5 0 0.8).length = s2 := by
    simp only [Vec3.length, Vec3.lengthSq, hs2def]
    norm_num
  have hday : dayWindDirection = Vec3.smul ⟨1, 0, 0.5⟩ (1 / s1) := by
    rw [dayWindDirection, Vec3.normalize, hlen1, if_neg (ne_of_gt hs1pos)]
  have hcloudy : cloudyWindDirection = Vec3.smul ⟨0.5, 0, 0.8⟩ (1 / s2) := by
    rw [cloudyWindDirection, Vec3.normalize, hlen2, if_neg (ne_of_gt hs2pos)]
  refine ⟨?_, ?_, ?_⟩
  · rw [hday, Vec3.lengthSq_smul]
    simp only [Vec3.lengthSq]
    field_simp
    nlinarith [hs1sq]
  · rw [hcloudy, Vec3.lengthSq_smul]
    simp only [Vec3.lengthSq]
    field_simp
    nlinarith [hs2sq]
  · rw [hday, hcloudy]
    simp only [windStep, Vec3.lerpV, Vec3.smul, Vec3.lengthSq]
    have key : ∀ a b : ℝ, 0 < a → 0 < b → a ^ 2 = 0.8 → b ^ 2 = 100 / 89 →
        (1 * a + (0.5 * b - 1 * a) * (1 / 3 * 1.5)) * (1 * a + (0.5 * b - 1 * a) * (1 / 3 * 1.5))
          + (0 * a + (0 * b - 0 * a) * (1 / 3 * 1.5)) * (0 * a + (0 * b - 0 * a) * (1 / 3 * 1.5))
          + (0.5 * a + (0.8 * b - 0.5 * a) * (1 / 3 * 1.5))
            * (0.5 * a + (0.8 * b - 0.5 * a) * (1 / 3 * 1.5)) < 99 / 100 := by
      intro a b ha hb ha2 hb2
      nlinarith [sq_nonneg (a * b - 0.95), mul_pos ha hb, ha2, hb2]
    have ha : (0:ℝ) < 1 / s1 := by positivity
    have hb : (0:ℝ) < 1 / s2 := by positivity
    have ha2 : (1 / s1) ^ 2 = 0.8 := by
      rw [div_pow, one_pow, hs1sq]; norm_num
    have hb2 : (1 / s2) ^ 2 = 100 / 89 := by
      rw [div_pow, one_pow, hs2sq]; norm_num
    exact key (1 / s1) (1 / s2) ha hb ha2 hb2

/-- C5 amended: the lerp step keeps the wind direction inside the unit
ball, and as long as the current direction differs from the (unit) target
and the lerp factor is strictly between zero and one, the resulting length
is strictly below one: unit length is not an invariant of the
renormalisation-free lerp, it only holds in the limit. -/
theorem c5_amended (w v : Vec3) (t : ℝ) (hw : w.lengthSq ≤ 1) (hv : v.lengthSq = 1)
    (h0 : 0 ≤ t) (h1 : t ≤ 1) :
    (w.lerpV v t).lengthSq ≤ 1 ∧
      (w ≠ v → 0 < t → t < 1 → (w.lerpV v t).lengthSq < 1) := by
  obtain ⟨wx, wy, wz⟩ := w
  obtain ⟨vx, vy, vz⟩ := v
  simp only [Vec3.lengthSq, Vec3.lerpV] at *
  have hD0 : (0:ℝ) ≤ (wx - vx) ^ 2 + (wy - vy) ^ 2 + (wz - vz) ^ 2 := by positivity
  constructor
  · nlinarith [mul_nonneg (sub_nonneg.mpr h1) (sub_nonneg.mpr hw),
      mul_nonneg (mul_nonneg h0 (sub_nonneg.mpr h1)) hD0]
  · intro hne ht0 ht1
    have hD : 0 < (wx - vx) ^ 2 + (wy - vy) ^ 2 + (wz - vz) ^ 2 := by
      rcases lt_or_eq_of_le hD0 with h | h
      · exact h
      · exfalso
        apply hne
        have hx2 : (wx - vx) ^ 2 = 0 := by
          nlinarith [sq_nonneg (wy - vy), sq_nonneg (wz - vz), sq_nonneg (wx - vx)]
        have hy2 : (wy - vy) ^ 2 = 0 := by
          nlinarith [sq_nonneg (wy - vy), sq_nonneg (wz - vz), sq_nonneg (wx - vx)]
        have hz2 : (wz - vz) ^ 2 = 0 := by
          nlinarith [sq_nonneg (wy - vy), sq_nonneg (wz - vz), sq_nonneg (wx - vx)]
        have hx : wx = vx := sub_eq_zero.mp (pow_eq_zero_iff two_ne_zero |>.mp hx2)
        have hy : wy = vy := sub_eq_zero.mp (pow_eq_zero_iff two_ne_zero |>.mp hy2)
        have hz : wz = vz := sub_eq_zero.mp (pow_eq_zero_iff two_ne_zero |>.mp hz2)
        rw [hx, hy, hz]
    nlinarith [mul_pos (mul_pos ht0 (sub_pos.mpr ht1)) hD,
      mul_nonneg (sub_nonneg.mpr ht1.le) (sub_nonneg.mpr hw)]

/-- Witness for C5 with rational unit vectors. -/
theorem c5_witness :
    (Vec3.lengthSq ⟨3 / 5, 0, 4 / 5⟩ ≤ 1) ∧ (Vec3.lengthSq ⟨1, 0, 0⟩ = 1) ∧
      (Vec3.lerpV ⟨3 / 5, 0, 4 / 5⟩ ⟨1, 0, 0⟩ (1 / 2)).lengthSq < 1 := by
  have hw : Vec3.lengthSq ⟨3 / 5, 0, 4 / 5⟩ ≤ 1 := by simp [Vec3.lengthSq]; norm_num
  have hv : Vec3.lengthSq ⟨1, 0, 0⟩ = 1 := by simp [Vec3.lengthSq]
  have hne : (⟨3 / 5, 0, 4 / 5⟩ : Vec3) ≠ ⟨1, 0, 0⟩ := by
    simp only [ne_eq, Vec3.mk.injEq]
    norm_num
  exact ⟨hw, hv, (c5_amended _ _ _ hw hv (by norm_num) (by norm_num)).2 hne
    (by norm_num) (by norm_num)⟩

/-! ### Claim C6: which steering contributions are clamped to maxForce -/

/-- C6 counterexample: the camera-repulsion contribution is not clamped to
maxForce before weighting.  For a bird at the origin and the camera 12.5
units away the accumulated contribution has magnitude 2.5, far above the
0.3 that a contribution clamped to maxForce = 0.03 and then weighted by
cameraRepulsionWeight = 10 could reach (and above maxForce itself). -/
theorem c6_counterexample :
    (cameraRepulsion ⟨0, 0, 0⟩ ⟨12.5, 0, 0⟩).length = 2.5 ∧
      ¬((cameraRepulsion ⟨0, 0, 0⟩ ⟨12.5, 0, 0⟩).length ≤ cameraRepulsionWeight * maxForce) := by
  have hdist : Vec3.distanceToSquared ⟨0, 0, 0⟩ ⟨12.5, 0, 0⟩ = 156.25 := by
    simp only [Vec3.distanceToSquared, Vec3.sub, Vec3.lengthSq]
    norm_num
  have hsqrt : Real.sqrt 156.25 = 12.5 := by
    rw [show (156.25:ℝ) = 12.5 ^ 2 by norm_num, Real.sqrt_sq (by norm_num)]
  have hsub : Vec3.sub ⟨0, 0, 0⟩ ⟨12.5, 0, 0⟩ = (⟨-12.5, 0, 0⟩ : Vec3) := by
    simp only [Vec3.sub, Vec3.mk.injEq]
    norm_num
  have hlen : (Vec3.mk (-12.5) 0 0).length = 12.5 := by
    simp only [Vec3.length, Vec3.lengthSq]
    rw [show ((-12.5) * (-12.5) + 0 * 0 + 0 * 0 : ℝ) = 156.25 by norm_num, hsqrt]
  have hnorm : (Vec3.mk (-12.5) 0 0).normalize = (⟨-1, 0, 0⟩ : Vec3) := by
    rw [Vec3.normalize, hlen, if_neg (by norm_num)]
    simp only [Vec3.smul, Vec3.mk.injEq]
    norm_num
  have hforce : cameraRepulsion ⟨0, 0, 0⟩ ⟨12.5, 0, 0⟩ = (⟨-2.5, 0, 0⟩ : Vec3) := by
    rw [cameraRepulsion, if_pos (by rw [hdist, cameraRepulsionRadius]; norm_num)]
    rw [hdist, hsqrt, hsub, hnorm]
    simp only [Vec3.smul, cameraRepulsionRadius, cameraRepulsionWeight, Vec3.mk.injEq]
    norm_num
  have hlen2 : (cameraRepulsion ⟨0, 0, 0⟩ ⟨12.5, 0, 0⟩).length = 2.5 := by
    rw [hforce]
    simp only [Vec3.length, Vec3.lengthSq]
    rw [show ((-2.5) * (-2.5) + 0 * 0 + 0 * 0 : ℝ) = 2.5 ^ 2 by norm_num,
      Real.sqrt_sq (by norm_num)]
  refine ⟨hlen2, ?_⟩
  rw [hlen2, cameraRepulsionWeight, maxForce]
  norm_num

lemma clampLength_zero_le (v : Vec3) (hi : ℝ) (hhi : 0 ≤ hi) :
    (v.clampLength 0 hi).length ≤ hi := by
  by_cases hv : v.length = 0
  · rw [Vec3.clampLength_length_of_zero _ _ _ hv]
    exact hhi
  · rw [Vec3.clampLength_length_of_ne _ _ _ le_rfl hv]
    exact max_le hhi (min_le_left _ _)

/-- C6 amended: only the separation, alignment, cohesion and seek-wander
contributions pass through `clampLength(0, maxForce)` before their weight
is applied, so each of those accumulated contributions is bounded by its
weight times maxForce; the wind-drift, camera-repulsion, horizontal
obstacle-avoidance, ground-avoidance and canopy-weaving contributions are
added without any clamp (the counterexample exhibits a camera-repulsion
contribution of magnitude 2.5). -/
theorem c6_amended (dir vel : Vec3) (w : ℝ) (hw : 0 ≤ w) :
    (boidSteer dir vel w).length ≤ w * maxForce := by
  rw [boidSteer, Vec3.length_smul, abs_of_nonneg hw]
  exact mul_le_mul_of_nonneg_left (clampLength_zero_le _ _ (by rw [maxForce]; norm_num)) hw

/-- Witness for C6 at the separation weight. -/
theorem c6_witness :
    (0:ℝ) ≤ separationWeight ∧
      (boidSteer ⟨1, 0, 0⟩ ⟨0, 0, 0⟩ separationWeight).length ≤ separationWeight * maxForce := by
  refine ⟨by rw [separationWeight]; norm_num, ?_⟩
  exact c6_amended ⟨1, 0, 0⟩ ⟨0, 0, 0⟩ separationWeight (by rw [separationWeight]; norm_num)

/-! ### Claim C7: flora placement loop -/

/-- Decision shape of one placement attempt in `treeLoop`: the nested gates
accept exactly when `codeAccepts` holds for the candidate elevation,
position and sparsity draw. -/
lemma accept_decision_pos {α : Type} (y absX absZ r : ℝ) (accept skip : α)
    (h : codeAccepts y absX absZ r) :
    (if y > WATER_LEVEL + 0.5 ∧ y < TREELINE then
        if Real.sin (absX * 0.05) * Real.cos (absZ * 0.05) < -0.2 then skip
        else if r > 0.75 then skip else accept
      else skip) = accept := by
  obtain ⟨h1, h2, h3, h4⟩ := h
  rw [if_pos ⟨h1, h2⟩, if_neg h3, if_neg h4]

lemma accept_decision_neg {α : Type} (y absX absZ r : ℝ) (accept skip : α)
    (h : ¬codeAccepts y absX absZ r) :
    (if y > WATER_LEVEL + 0.5 ∧ y < TREELINE then
        if Real.sin (absX * 0.05) * Real.cos (absZ * 0.05) < -0.2 then skip
        else if r > 0.75 then skip else accept
      else skip) = skip := by
  by_cases hband : y > WATER_LEVEL + 0.5 ∧ y < TREELINE
  · rw [if_pos hband]
    by_cases hcl : Real.sin (absX * 0.05) * Real.cos (absZ * 0.05) < -0.2
    · rw [if_pos hcl]
    · rw [if_neg hcl]
      have hr : r > 0.75 := by
        by_contra hr
        exact h ⟨hband.1, hband.2, hcl, hr⟩
      rw [if_pos hr]
  · rw [if_neg hband]

/-- C7 counterexample: the sparsity gate accepts three quarters of the
draws, not one quarter.  At elevation 10, position (0, 0) (where the
clustering gate value is sin 0 * cos 0 = 0) and draw 0.5 the code accepts
the candidate while the claimed 25-percent gate rejects it, so the claimed
acceptance condition differs from the implemented one. -/
theorem c7_counterexample :
    codeAccepts 10 0 0 (1 / 2) ∧ ¬claimAccepts 10 0 0 (1 / 2) := by
  have hcluster : Real.sin (0 * 0.05) * Real.cos (0 * 0.05) = 0 := by
    rw [show ((0:ℝ) * 0.05) = 0 by norm_num, Real.sin_zero]
    ring
  constructor
  · refine ⟨by rw [WATER_LEVEL]; norm_num, by rw [TREELINE]; norm_num, ?_, by norm_num⟩
    rw [hcluster]
    norm_num
  · rintro ⟨-, -, -, hr⟩
    norm_num at hr

lemma treeLoop_length_le (p : ℕ → ℤ) (cx cz size : ℝ) :
    ∀ (fuel : ℕ) (seed : ℝ) (count : ℕ) (acc : List TreeDatum),
      acc.length = count → count ≤ TREES_PER_CHUNK →
      (treeLoop p cx cz size fuel seed count acc).length ≤ TREES_PER_CHUNK := by
  intro fuel
  induction fuel with
  | zero =>
    intro seed count acc hlen hc
    rw [treeLoop, hlen]
    exact hc
  | succ n ih =>
    intro seed count acc hlen hc
    rw [treeLoop]
    split_ifs with h0
    · rw [hlen]; exact hc
    dsimp only
    split_ifs with h1 h2 h3
    · exact ih _ _ _ hlen hc
    · exact ih _ _ _ hlen hc
    · exact ih _ _ _ (by simp [hlen]) (by omega)
    · exact ih _ _ _ hlen hc

/-- C7 amended: flora placement makes at most 375 = 150 * 2.5 attempts
(the loop fuel of `treeData`), stops once 150 trees are accepted, and
accepts a candidate exactly when its elevation lies in
(waterLevel + 0.5, treeline), the clustering gate
sin(x*0.05)*cos(z*0.05) >= -0.2 passes, and the sparsity draw is at most
0.75 - a 75-percent acceptance gate, not 25 percent.  The layout for a
chunk is a pure function of the chunk coordinates, and the accepted list
never exceeds 150 trees. -/
theorem c7_amended :
    (∀ y absX absZ r : ℝ, codeAccepts y absX absZ r ↔
        (y > WATER_LEVEL + 0.5 ∧ y < TREELINE ∧
          Real.sin (absX * 0.05) * Real.cos (absZ * 0.05) ≥ -0.2 ∧ r ≤ 0.75)) ∧
      ∀ (p : ℕ → ℤ) (cx cz size : ℝ),
        (treeData p cx cz size).length ≤ TREES_PER_CHUNK := by
  constructor
  · intro y absX absZ r
    rw [codeAccepts]
    rw [not_lt, not_lt]
  · intro p cx cz size
    exact treeLoop_length_le p cx cz size 375 _ 0 [] rfl (by rw [TREES_PER_CHUNK]; omega)

/-! ### Claim C8: grass-band colour choice -/

/-- C8 counterexample: in the gentle-slope grass band the code chooses
grass only when the macro-noise sample exceeds 0.2, not when it is merely
positive.  At elevation 10, normal 0.9 and macro-noise 0.1 the code yields
the dark-grass colour while the claimed sign rule yields grass. -/
theorem c8_counterexample :
    classify 10 0.9 0.1 0 = colorDarkGrass ∧ classifyGrassBandClaim 0.9 0.1 = colorGrass ∧
      classify 10 0.9 0.1 0 ≠ classifyGrassBandClaim 0.9 0.1 := by
  have h1 : classify 10 0.9 0.1 0 = colorDarkGrass := by
    simp only [classify, WATER_LEVEL, SAND_LEVEL, ROCK_LEVEL]
    norm_num
  have h2 : classifyGrassBandClaim 0.9 0.1 = colorGrass := by
    simp only [classifyGrassBandClaim]
    norm_num
  refine ⟨h1, h2, ?_⟩
  rw [h1, h2]
  simp only [colorDarkGrass, colorGrass, ne_eq, Col.mk.injEq]
  norm_num

/-- C8 amended: for a gentle-slope vertex (normalY >= 0.65) with
sand-level <= y < rock-level, the colour is grass when the macro-noise
sample exceeds 0.2 and dark grass otherwise (a threshold of 0.2, not the
sign of the sample), and it is blended forty percent toward rock exactly
when normalY < 0.85. -/
theorem c8_amended (y ny n microN : ℝ) (hy1 : SAND_LEVEL ≤ y) (hy2 : y < ROCK_LEVEL)
    (hny : 0.65 ≤ ny) :
    classify y ny n microN =
      (if ny < 0.85 then Col.lerpC (if n > 0.2 then colorGrass else colorDarkGrass) colorRock 0.4
        else if n > 0.2 then colorGrass else colorDarkGrass) := by
  rw [SAND_LEVEL] at hy1
  rw [ROCK_LEVEL] at hy2
  simp only [classify, WATER_LEVEL, SAND_LEVEL, ROCK_LEVEL]
  rw [if_neg (by linarith : ¬(y < 1.8 - 1)), if_neg (by linarith : ¬(y < 1.8 + 0.5)),
    if_neg (by linarith : ¬(ny < 0.65)), if_neg (by linarith : ¬(y < 3.8)),
    if_pos (by linarith : y < 22.0)]

/-- Witness for C8 inside the grass band with a sample above the
threshold. -/
theorem c8_witness :
    SAND_LEVEL ≤ (10:ℝ) ∧ (10:ℝ) < ROCK_LEVEL ∧ (0.65:ℝ) ≤ 0.9 ∧
      classify 10 0.9 0.3 0 =
        (if (0.9:ℝ) < 0.85 then
            Col.lerpC (if (0.3:ℝ) > 0.2 then colorGrass else colorDarkGrass) colorRock 0.4
          else if (0.3:ℝ) > 0.2 then colorGrass else colorDarkGrass) := by
  refine ⟨by rw [SAND_LEVEL]; norm_num, by rw [ROCK_LEVEL]; norm_num, by norm_num, ?_⟩
  exact c8_amended 10 0.9 0.3 0 (by rw [SAND_LEVEL]; norm_num) (by rw [ROCK_LEVEL]; norm_num)
    (by norm_num)

/-! ### Claim C2: certified sine bounds for concrete noise-table entries

The singleton noise generator is seeded with `Math.random() * 1000`, so the
sine-derived base table differs from run to run.  To exhibit two runs with
different `noise2D` outputs we certify the handful of table entries that the
evaluation at `(0, 1/4)` reads, for the run draws `0` and `0.002854`
(seeds 0 and 2.854).  The bounds come from Mathlib's quartic Taylor bounds
on `sin` and `cos`, sharpened through the double-angle formulas, and from
the rational bounds `3.141592 < pi < 3.141593`. -/

lemma sin_taylor_bounds {x : ℝ} (h0 : 0 ≤ x) (h1 : x ≤ 1) :
    x - x ^ 3 / 6 - x ^ 4 * (5 / 96) ≤ Real.sin x ∧
      Real.sin x ≤ x - x ^ 3 / 6 + x ^ 4 * (5 / 96) := by
  have hb := Real.sin_bound (show |x| ≤ 1 by rwa [abs_of_nonneg h0])
  rw [abs_of_nonneg h0, abs_le] at hb
  constructor <;> linarith [hb.1, hb.2]

lemma cos_taylor_bounds {x : ℝ} (h1 : |x| ≤ 1) :
    1 - x ^ 2 / 2 - x ^ 4 * (5 / 96) ≤ Real.cos x ∧
      Real.cos x ≤ 1 - x ^ 2 / 2 + x ^ 4 * (5 / 96) := by
  have hb := Real.cos_bound h1
  have habs : |x| ^ 4 = x ^ 4 := by
    rw [← abs_pow, abs_of_nonneg (by positivity)]
  rw [habs, abs_le] at hb
  constructor <;> linarith [hb.1, hb.2]

lemma sin_direct_bounds {q A B : ℝ} (h0 : 0 ≤ q) (h1 : q ≤ 1)
    (hA : A ≤ q - q ^ 3 / 6 - q ^ 4 * (5 / 96)) (hB : q - q ^ 3 / 6 + q ^ 4 * (5 / 96) ≤ B) :
    A ≤ Real.sin q ∧ Real.sin q ≤ B := by
  obtain ⟨hl, hu⟩ := sin_taylor_bounds h0 h1
  exact ⟨le_trans hA hl, le_trans hu hB⟩

lemma cos_direct_bounds {q A B : ℝ} (h1 : |q| ≤ 1)
    (hA : A ≤ 1 - q ^ 2 / 2 - q ^ 4 * (5 / 96)) (hB : 1 - q ^ 2 / 2 + q ^ 4 * (5 / 96) ≤ B) :
    A ≤ Real.cos q ∧ Real.cos q ≤ B := by
  obtain ⟨hl, hu⟩ := cos_taylor_bounds h1
  exact ⟨le_trans hA hl, le_trans hu hB⟩

lemma sin_double_bounds {a sl su cl cu : ℝ} (hs : sl ≤ Real.sin a ∧ Real.sin a ≤ su)
    (hc : cl ≤ Real.cos a ∧ Real.cos a ≤ cu) (hsl : 0 ≤ sl) (hcl : 0 ≤ cl) :
    2 * sl * cl ≤ Real.sin (2 * a) ∧ Real.sin (2 * a) ≤ 2 * su * cu := by
  rw [Real.sin_two_mul]
  have hsin0 : 0 ≤ Real.sin a := le_trans hsl hs.1
  have hcos0 : 0 ≤ Real.cos a := le_trans hcl hc.1
  constructor
  · have := mul_le_mul hs.1 hc.1 hcl hsin0
    linarith
  · have := mul_le_mul hs.2 hc.2 hcos0 (le_trans hsin0 hs.2)
    linarith

lemma cos_double_bounds {a sl su : ℝ} (hs : sl ≤ Real.sin a ∧ Real.sin a ≤ su) (hsl : 0 ≤ sl) :
    1 - 2 * su ^ 2 ≤ Real.cos (2 * a) ∧ Real.cos (2 * a) ≤ 1 - 2 * sl ^ 2 := by
  have hident : Real.cos (2 * a) = 1 - 2 * Real.sin a ^ 2 := by
    have h1 := Real.cos_two_mul a
    have h2 := Real.sin_sq_add_cos_sq a
    nlinarith [h1, h2]
  rw [hident]
  have hsin0 : 0 ≤ Real.sin a := le_trans hsl hs.1
  constructor
  · nlinarith [mul_le_mul hs.2 hs.2 hsin0 (le_trans hsin0 hs.2)]
  · nlinarith [mul_le_mul hs.1 hs.1 hsl hsin0]

/-- Certified bounds on the sine of a rational point of the unit interval,
obtained by two applications of the double-angle formula to the quartic
Taylor bounds at a quarter of the angle. -/
lemma sin_quarter_bounds {q A B : ℝ} (sl4 su4 cl4 cu4 sl2 su2 cl2 cu2 : ℝ)
    (h0 : 0 ≤ q) (h1 : q ≤ 1)
    (hsl4 : sl4 ≤ q / 4 - (q / 4) ^ 3 / 6 - (q / 4) ^ 4 * (5 / 96))
    (hsu4 : q / 4 - (q / 4) ^ 3 / 6 + (q / 4) ^ 4 * (5 / 96) ≤ su4)
    (hcl4 : cl4 ≤ 1 - (q / 4) ^ 2 / 2 - (q / 4) ^ 4 * (5 / 96))
    (hcu4 : 1 - (q / 4) ^ 2 / 2 + (q / 4) ^ 4 * (5 / 96) ≤ cu4)
    (hsl40 : 0 ≤ sl4) (hcl40 : 0 ≤ cl4)
    (hsl2 : sl2 ≤ 2 * sl4 * cl4) (hsu2 : 2 * su4 * cu4 ≤ su2)
    (hcl2 : cl2 ≤ 1 - 2 * su4 ^ 2) (hcu2 : 1 - 2 * sl4 ^ 2 ≤ cu2)
    (hsl20 : 0 ≤ sl2) (hcl20 : 0 ≤ cl2)
    (hA : A ≤ 2 * sl2 * cl2) (hB : 2 * su2 * cu2 ≤ B) :
    A ≤ Real.sin q ∧ Real.sin q ≤ B := by
  have hq40 : 0 ≤ q / 4 := by linarith
  have hq41 : q / 4 ≤ 1 := by linarith
  have hs4 := sin_direct_bounds hq40 hq41 hsl4 hsu4
  have hc4 := cos_direct_bounds (by rw [abs_of_nonneg hq40]; exact hq41) hcl4 hcu4
  have hhalfS := sin_double_bounds hs4 hc4 hsl40 hcl40
  have hhalfC := cos_double_bounds hs4 hsl40
  have hhalfS' : sl2 ≤ Real.sin (2 * (q / 4)) ∧ Real.sin (2 * (q / 4)) ≤ su2 :=
    ⟨le_trans hsl2 hhalfS.1, le_trans hhalfS.2 hsu2⟩
  have hhalfC' : cl2 ≤ Real.cos (2 * (q / 4)) ∧ Real.cos (2 * (q / 4)) ≤ cu2 :=
    ⟨le_trans hcl2 hhalfC.1, le_trans hhalfC.2 hcu2⟩
  have hfull := sin_double_bounds hhalfS' hhalfC' hsl20 hcl20
  have hqeq : 2 * (2 * (q / 4)) = q := by ring
  rw [hqeq] at hfull
  exact ⟨le_trans hA hfull.1, le_trans hfull.2 hB⟩

/-- Monotone transfer of sine bounds from rational interval endpoints below
pi over two. -/
lemma sin_interval_bounds {θ lo hi A B : ℝ} (hl : lo ≤ θ) (hu : θ ≤ hi)
    (hlo : 0 ≤ lo) (hhi : hi ≤ 1.570796)
    (hA : A ≤ Real.sin lo) (hB : Real.sin hi ≤ B) :
    A ≤ Real.sin θ ∧ Real.sin θ ≤ B := by
  have hpi : (3.141592 : ℝ) < Real.pi := Real.pi_gt_d6
  have hmem : ∀ t : ℝ, 0 ≤ t → t ≤ hi → t ∈ Set.Icc (-(Real.pi / 2)) (Real.pi / 2) := by
    intro t h0 h1
    constructor <;> [linarith; linarith]
  have hθ0 : 0 ≤ θ := le_trans hlo hl
  have h1 := Real.strictMonoOn_sin.monotoneOn (hmem lo hlo (le_trans hl hu))
    (hmem θ hθ0 hu) hl
  have h2 := Real.strictMonoOn_sin.monotoneOn (hmem θ hθ0 hu)
    (hmem hi (le_trans hθ0 hu) le_rfl) hu
  exact ⟨le_trans hA h1, le_trans h2 hB⟩

/-- Anti-monotone transfer of cosine bounds from rational interval
endpoints inside the interval from zero to pi. -/
lemma cos_interval_bounds {x lo hi A B : ℝ} (hl : lo ≤ x) (hu : x ≤ hi)
    (hlo : 0 ≤ lo) (hhi : hi ≤ 3.141592)
    (hA : A ≤ Real.cos hi) (hB : Real.cos lo ≤ B) :
    A ≤ Real.cos x ∧ Real.cos x ≤ B := by
  have hpi : (3.141592 : ℝ) < Real.pi := Real.pi_gt_d6
  have hmem : ∀ t : ℝ, 0 ≤ t → t ≤ hi → t ∈ Set.Icc 0 Real.pi := by
    intro t h0 h1
    constructor <;> [linarith; linarith]
  have hx0 : 0 ≤ x := le_trans hlo hl
  have h1 := Real.strictAntiOn_cos.antitoneOn (hmem lo hlo (le_trans hl hu))
    (hmem x hx0 hu) hl
  have h2 := Real.strictAntiOn_cos.antitoneOn (hmem x hx0 hu)
    (hmem hi (le_trans hx0 hu) le_rfl) hu
  exact ⟨le_trans hA h2, le_trans h1 hB⟩

/-- Floor characterisation of a noise-table entry. -/
lemma pTable_eq {seed : ℝ} {k : ℕ} {N : ℤ}
    (hlo : (N : ℝ) / 256 ≤ |Real.sin (seed + k)|)
    (hhi : |Real.sin (seed + k)| < ((N : ℝ) + 1) / 256) :
    pTable seed k = N := by
  rw [pTable, Int.floor_eq_iff]
  exact ⟨by nlinarith [hlo], by nlinarith [hhi]⟩

lemma sin_one_bounds : (0.8402487059 : ℝ) ≤ Real.sin 1 ∧ Real.sin 1 ≤ 0.842371829 :=
  sin_quarter_bounds 0.2471923828 0.2475992839 0.9685465494 0.9689534506 0.4788346587
    0.4798243611 0.8773891892 0.8777918518
    (by norm_num) (by norm_num) (by norm_num) (by norm_num) (by norm_num) (by norm_num)
    (by norm_num) (by norm_num) (by norm_num) (by norm_num) (by norm_num) (by norm_num)
    (by norm_num) (by norm_num) (by norm_num) (by norm_num)

lemma cosE2lo : (0.9801073861 : ℝ) ≤ Real.cos 0.199052 ∧ Real.cos 0.199052 ≤ 0.9802709152 :=
  cos_direct_bounds (by rw [abs_of_nonneg (by norm_num : (0:ℝ) ≤ 0.199052)]; norm_num)
    (by norm_num) (by norm_num)

lemma cosE2hi : (0.980093636 : ℝ) ≤ Real.cos 0.1991205 ∧ Real.cos 0.1991205 ≤ 0.9802573904 :=
  cos_direct_bounds (by rw [abs_of_nonneg (by norm_num : (0:ℝ) ≤ 0.1991205)]; norm_num)
    (by norm_num) (by norm_num)

lemma sinF0lo : (0.2832712926 : ℝ) ≤ Real.sin 0.287592 ∧ Real.sin 0.287592 ≤ 0.2839838766 :=
  sin_direct_bounds (by norm_num) (by norm_num) (by norm_num) (by norm_num)

lemma sinF0hi : (0.2832722463 : ℝ) ≤ Real.sin 0.287593 ∧ Real.sin 0.287593 ≤ 0.2839848402 :=
  sin_direct_bounds (by norm_num) (by norm_num) (by norm_num) (by norm_num)

lemma sinF1lo : (0.5176491968 : ℝ) ≤ Real.sin 0.544208 ∧ Real.sin 0.544208 ≤ 0.5178144917 :=
  sin_quarter_bounds 0.1356144311 0.1356501214 0.9907270815 0.9907627718 0.268713779
    0.2687941806 0.9631980891 0.9632174522
    (by norm_num) (by norm_num) (by norm_num) (by norm_num) (by norm_num) (by norm_num)
    (by norm_num) (by norm_num) (by norm_num) (by norm_num) (by norm_num) (by norm_num)
    (by norm_num) (by norm_num) (by norm_num) (by norm_num)

lemma sinF1hi : (0.5176697124 : ℝ) ≤ Real.sin 0.544232 ∧ Real.sin 0.544232 ≤ 0.5178350376 :=
  sin_quarter_bounds 0.1356203724 0.135656069 0.990726262 0.9907619586 0.2687253291
    0.2688057453 0.9631948618 0.9632142292
    (by norm_num) (by norm_num) (by norm_num) (by norm_num) (by norm_num) (by norm_num)
    (by norm_num) (by norm_num) (by norm_num) (by norm_num) (by norm_num) (by norm_num)
    (by norm_num) (by norm_num) (by norm_num) (by norm_num)

lemma sinF2lo : (0.4401086739 : ℝ) ≤ Real.sin 0.455768 ∧ Real.sin 0.455768 ≤ 0.4401880311 :=
  sin_quarter_bounds 0.1136866739 0.1137042315 0.9934998315 0.9935173891 0.2258953827
    0.2259342625 0.9741426954 0.9741506804
    (by norm_num) (by norm_num) (by norm_num) (by norm_num) (by norm_num) (by norm_num)
    (by norm_num) (by norm_num) (by norm_num) (by norm_num) (by norm_num) (by norm_num)
    (by norm_num) (by norm_num) (by norm_num) (by norm_num)

lemma sinF2hi : (0.4401302143 : ℝ) ≤ Real.sin 0.455792 ∧ Real.sin 0.455792 ≤ 0.4402095888 :=
  sin_quarter_bounds 0.1136926331 0.1137101944 0.993499146 0.9935167073 0.2259070677
    0.2259459559 0.9741399833 0.9741479704
    (by norm_num) (by norm_num) (by norm_num) (by norm_num) (by norm_num) (by norm_num)
    (by norm_num) (by norm_num) (by norm_num) (by norm_num) (by norm_num) (by norm_num)
    (by norm_num) (by norm_num) (by norm_num) (by norm_num)

lemma sinF3lo : (0.2321506292 : ℝ) ≤ Real.sin 0.234456 ∧ Real.sin 0.234456 ≤ 0.2324653854 :=
  sin_direct_bounds (by norm_num) (by norm_num) (by norm_num) (by norm_num)

lemma sinF3hi : (0.2321923316 : ℝ) ≤ Real.sin 0.234499 ∧ Real.sin 0.234499 ≤ 0.2325073188 :=
  sin_direct_bounds (by norm_num) (by norm_num) (by norm_num) (by norm_num)

lemma cosF4lo : (0.9826667223 : ℝ) ≤ Real.cos 0.1858555 ∧ Real.cos 0.1858555 ≤ 0.9827910108 :=
  cos_direct_bounds (by rw [abs_of_nonneg (by norm_num : (0:ℝ) ≤ 0.1858555)]; norm_num)
    (by norm_num) (by norm_num)

lemma cosF4hi : (0.9826598891 : ℝ) ≤ Real.cos 0.185892 ∧ Real.cos 0.185892 ≤ 0.9827842752 :=
  cos_direct_bounds (by rw [abs_of_nonneg (by norm_num : (0:ℝ) ≤ 0.185892)]; norm_num)
    (by norm_num) (by norm_num)

/-! Certified table entries for the run with draw 0 (seed 0). -/

lemma pTable_s1_0 : pTable 0 0 = 0 := by
  apply pTable_eq
  · norm_num [Real.sin_zero]
  · norm_num [Real.sin_zero]

lemma pTable_s1_1 : pTable 0 1 = 215 := by
  have hb := sin_one_bounds
  have harg : (0:ℝ) + ((1:ℕ):ℝ) = 1 := by norm_num
  apply pTable_eq <;>
    rw [harg, abs_of_nonneg (by linarith [hb.1] : (0:ℝ) ≤ Real.sin 1)] <;>
    push_cast <;> [linarith [hb.1]; linarith [hb.2]]

lemma pTable_s1_215 : pTable 0 215 = 250 := by
  have hpilo := Real.pi_gt_d6
  have hpihi := Real.pi_lt_d6
  have harg : (0:ℝ) + ((215:ℕ):ℝ) = 215 := by norm_num
  set x := Real.pi / 2 - (215 - 68 * Real.pi) with hx
  have hsin : Real.sin 215 = Real.cos x := by
    have e1 : (215:ℝ) = (215 - 68 * Real.pi) + ((34:ℤ)) * (2 * Real.pi) := by
      push_cast
      ring
    conv_lhs => rw [e1]
    rw [Real.sin_add_int_mul_two_pi, ← Real.cos_pi_div_two_sub]
  have hxlo : (0.199052:ℝ) ≤ x := by rw [hx]; linarith
  have hxhi : x ≤ (0.1991205:ℝ) := by rw [hx]; linarith
  have hcos := cos_interval_bounds hxlo hxhi (by norm_num) (by norm_num) cosE2hi.1 cosE2lo.2
  apply pTable_eq <;>
    rw [harg, hsin, abs_of_nonneg (by linarith [hcos.1] : (0:ℝ) ≤ Real.cos x)] <;>
    push_cast <;> [linarith [hcos.1]; linarith [hcos.2]]

/-! Certified table entries for the run with draw 0.002854 (seed 2.854). -/

lemma pTable_s2_0 : pTable 2.854 0 = 72 := by
  have hpilo := Real.pi_gt_d6
  have hpihi := Real.pi_lt_d6
  have harg : (2.854:ℝ) + ((0:ℕ):ℝ) = 2.854 := by norm_num
  have hsin : Real.sin (2.854:ℝ) = Real.sin (Real.pi - 2.854) := (Real.sin_pi_sub 2.854).symm
  have hulo : (0.287592:ℝ) ≤ Real.pi - 2.854 := by linarith
  have huhi : Real.pi - 2.854 ≤ (0.287593:ℝ) := by linarith
  have hs := sin_interval_bounds hulo huhi (by norm_num) (by norm_num) sinF0lo.1 sinF0hi.2
  apply pTable_eq <;>
    rw [harg, hsin, abs_of_nonneg (by linarith [hs.1] : (0:ℝ) ≤ Real.sin (Real.pi - 2.854))] <;>
    push_cast <;> [linarith [hs.1]; linarith [hs.2]]

lemma pTable_s2_72 : pTable 2.854 72 = 132 := by
  have hpilo := Real.pi_gt_d6
  have hpihi := Real.pi_lt_d6
  have harg : (2.854:ℝ) + ((72:ℕ):ℝ) = 74.854 := by norm_num
  have hsin : Real.sin (74.854:ℝ) = -Real.sin (74.854 - 23 * Real.pi) := by
    have e1 : (74.854:ℝ) = ((74.854 - 23 * Real.pi) + Real.pi) + ((11:ℤ)) * (2 * Real.pi) := by
      push_cast
      ring
    conv_lhs => rw [e1]
    rw [Real.sin_add_int_mul_two_pi, Real.sin_add_pi]
  have hθu : Real.sin (74.854 - 23 * Real.pi) = Real.sin (24 * Real.pi - 74.854) := by
    have := Real.sin_pi_sub (24 * Real.pi - 74.854)
    rw [show Real.pi - (24 * Real.pi - 74.854) = 74.854 - 23 * Real.pi by ring] at this
    exact this
  have hulo : (0.544208:ℝ) ≤ 24 * Real.pi - 74.854 := by linarith
  have huhi : 24 * Real.pi - 74.854 ≤ (0.544232:ℝ) := by linarith
  have hs := sin_interval_bounds hulo huhi (by norm_num) (by norm_num) sinF1lo.1 sinF1hi.2
  apply pTable_eq <;>
    rw [harg, hsin, abs_neg, hθu,
      abs_of_nonneg (by linarith [hs.1] : (0:ℝ) ≤ Real.sin (24 * Real.pi - 74.854))] <;>
    push_cast <;> [linarith [hs.1]; linarith [hs.2]]

lemma pTable_s2_73 : pTable 2.854 73 = 112 := by
  have hpilo := Real.pi_gt_d6
  have hpihi := Real.pi_lt_d6
  have harg : (2.854:ℝ) + ((73:ℕ):ℝ) = 75.854 := by norm_num
  have hsin : Real.sin (75.854:ℝ) = Real.sin (75.854 - 24 * Real.pi) := by
    have e1 : (75.854:ℝ) = (75.854 - 24 * Real.pi) + ((12:ℤ)) * (2 * Real.pi) := by
      push_cast
      ring
    conv_lhs => rw [e1]
    rw [Real.sin_add_int_mul_two_pi]
  have hulo : (0.455768:ℝ) ≤ 75.854 - 24 * Real.pi := by linarith
  have huhi : 75.854 - 24 * Real.pi ≤ (0.455792:ℝ) := by linarith
  have hs := sin_interval_bounds hulo huhi (by norm_num) (by norm_num) sinF2lo.1 sinF2hi.2
  apply pTable_eq <;>
    rw [harg, hsin,
      abs_of_nonneg (by linarith [hs.1] : (0:ℝ) ≤ Real.sin (75.854 - 24 * Real.pi))] <;>
    push_cast <;> [linarith [hs.1]; linarith [hs.2]]

lemma pTable_s2_132 : pTable 2.854 132 = 59 := by
  have hpilo := Real.pi_gt_d6
  have hpihi := Real.pi_lt_d6
  have harg : (2.854:ℝ) + ((132:ℕ):ℝ) = 134.854 := by norm_num
  have hsin : Real.sin (134.854:ℝ) = Real.sin (134.854 - 42 * Real.pi) := by
    have e1 : (134.854:ℝ) = (134.854 - 42 * Real.pi) + ((21:ℤ)) * (2 * Real.pi) := by
      push_cast
      ring
    conv_lhs => rw [e1]
    rw [Real.sin_add_int_mul_two_pi]
  have hθu : Real.sin (134.854 - 42 * Real.pi) = Real.sin (43 * Real.pi - 134.854) := by
    have := Real.sin_pi_sub (43 * Real.pi - 134.854)
    rw [show Real.pi - (43 * Real.pi - 134.854) = 134.854 - 42 * Real.pi by ring] at this
    exact this
  have hulo : (0.234456:ℝ) ≤ 43 * Real.pi - 134.854 := by linarith
  have huhi : 43 * Real.pi - 134.854 ≤ (0.234499:ℝ) := by linarith
  have hs := sin_interval_bounds hulo huhi (by norm_num) (by norm_num) sinF3lo.1 sinF3hi.2
  apply pTable_eq <;>
    rw [harg, hsin, hθu,
      abs_of_nonneg (by linarith [hs.1] : (0:ℝ) ≤ Real.sin (43 * Real.pi - 134.854))] <;>
    push_cast <;> [linarith [hs.1]; linarith [hs.2]]

lemma pTable_s2_112 : pTable 2.854 112 = 251 := by
  have hpilo := Real.pi_gt_d6
  have hpihi := Real.pi_lt_d6
  have harg : (2.854:ℝ) + ((112:ℕ):ℝ) = 114.854 := by norm_num
  set x := 114.854 - (73 / 2) * Real.pi with hx
  have hsin : Real.sin (114.854:ℝ) = Real.cos x := by
    have e1 : (114.854:ℝ) = (114.854 - 36 * Real.pi) + ((18:ℤ)) * (2 * Real.pi) := by
      push_cast
      ring
    conv_lhs => rw [e1]
    rw [Real.sin_add_int_mul_two_pi, ← Real.cos_pi_div_two_sub,
      show Real.pi / 2 - (114.854 - 36 * Real.pi) = -(114.854 - (73 / 2) * Real.pi) by ring,
      Real.cos_neg]
  have hxlo : (0.1858555:ℝ) ≤ x := by rw [hx]; linarith
  have hxhi : x ≤ (0.185892:ℝ) := by rw [hx]; linarith
  have hcos := cos_interval_bounds hxlo hxhi (by norm_num) (by norm_num) cosF4hi.1 cosF4lo.2
  apply pTable_eq <;>
    rw [harg, hsin, abs_of_nonneg (by linarith [hcos.1] : (0:ℝ) ≤ Real.cos x)] <;>
    push_cast <;> [linarith [hcos.1]; linarith [hcos.2]]

/-- Evaluation of the run-0 noise instance at (0, 1/4). -/
lemma noise_run1_eval : noise2D (pTable 0) 0 (1 / 4) = 75 / 512 := by
  have h0 := pTable_s1_0
  have h1 := pTable_s1_1
  have h215 := pTable_s1_215
  have hf0 : ⌊(0:ℝ)⌋ = 0 := Int.floor_zero
  have hf4 : ⌊(1/4:ℝ)⌋ = 0 := by norm_num
  have ht : ((215:ℤ)).toNat = 215 := rfl
  have ht10 : ((10:ℤ)).toNat = 10 := rfl
  simp only [noise2D, hf0, hf4]
  norm_num [h0, h1, h215, ht, ht10, lerp, fade, grad]

/-- Evaluation of the noise instance of a run that drew 0.002854 at
(0, 1/4). -/
lemma noise_run2_eval : noise2D (pTable 2.854) 0 (1 / 4) = -(75 / 512) := by
  have h0 := pTable_s2_0
  have h72 := pTable_s2_72
  have h73 := pTable_s2_73
  have h132 := pTable_s2_132
  have h112 := pTable_s2_112
  norm_num only at h0 h72 h73 h132 h112
  have hf0 : ⌊(0:ℝ)⌋ = 0 := Int.floor_zero
  have hf4 : ⌊(1/4:ℝ)⌋ = 0 := by norm_num
  have ht72 : ((72:ℤ)).toNat = 72 := rfl
  have ht73 : ((73:ℤ)).toNat = 73 := rfl
  have ht132 : ((132:ℤ)).toNat = 132 := rfl
  have ht112 : ((112:ℤ)).toNat = 112 := rfl
  have ht11 : ((11:ℤ)).toNat = 11 := rfl
  simp only [noise2D, hf0, hf4]
  norm_num [h0, h72, h73, h132, h112, ht72, ht73, ht132, ht112, ht11, lerp, fade, grad]

/-- C2 counterexample: the program's single noise instance is constructed
with seed `Math.random() * 1000`, so its output is not reproducible across
process restarts: a run that drew 0 and a run that drew 0.002854 (both
admissible `Math.random()` values) give noise instances whose samples at
(0, 1/4) are 75/512 and -75/512 respectively. -/
theorem c2_counterexample :
    (0:ℝ) ≤ 0 ∧ (0:ℝ) < 1 ∧ (0:ℝ) ≤ 0.002854 ∧ (0.002854:ℝ) < 1 ∧
      noise2D (pTable (noiseSingletonSeed 0)) 0 (1 / 4) ≠
        noise2D (pTable (noiseSingletonSeed 0.002854)) 0 (1 / 4) := by
  have e1 : noiseSingletonSeed 0 = 0 := by rw [noiseSingletonSeed]; ring
  have e2 : noiseSingletonSeed 0.002854 = 2.854 := by rw [noiseSingletonSeed]; norm_num
  refine ⟨le_rfl, by norm_num, by norm_num, by norm_num, ?_⟩
  rw [e1, e2, noise_run1_eval, noise_run2_eval]
  norm_num

/-- C2 as it actually holds: sampling is a pure function of the constructed
table, so for a fixed seed repeated calls within a run agree bit for bit;
but the singleton is seeded from the run's `Math.random()` draw, and two
admissible draws produce instances with different outputs, so the output
sequence is not the same on every run. -/
theorem c2_amended :
    (∀ r x y : ℝ, noise2D (pTable (noiseSingletonSeed r)) x y =
        noise2D (pTable (noiseSingletonSeed r)) x y) ∧
      ∃ r1 r2 : ℝ, 0 ≤ r1 ∧ r1 < 1 ∧ 0 ≤ r2 ∧ r2 < 1 ∧
        noise2D (pTable (noiseSingletonSeed r1)) 0 (1 / 4) ≠
          noise2D (pTable (noiseSingletonSeed r2)) 0 (1 / 4) := by
  refine ⟨fun _ _ _ => rfl, 0, 0.002854, le_rfl, by norm_num, by norm_num, by norm_num, ?_⟩
  have e1 : noiseSingletonSeed 0 = 0 := by rw [noiseSingletonSeed]; ring
  have e2 : noiseSingletonSeed 0.002854 = 2.854 := by rw [noiseSingletonSeed]; norm_num
  rw [e1, e2, noise_run1_eval, noise_run2_eval]
  norm_num

end

end Zenith
